import Mathlib

/-!
# The provisioning relay of `source/provisioning_sm.c`

A shallow embedding of the relay state machine that forwards length-framed
APDUs between a peer channel (`pal_logger_read` / `pal_logger_write`) and the
secure element (`optiga_comms_open` / `optiga_comms_transceive`).

* The globals of the C file are the fields of `Machine`.
* The collaborators that are not part of the file (peer channel, chip
  transport, completion callback) are an oracle `Env`: one value of `Env`
  holds what the collaborators answer during one call of
  `provisioning_state_machine`.
* Every call returns a `Run`: the calls it made to its collaborators, in
  order, with their arguments (`Action`), and the machine it leaves behind, or
  `none` when the call does not return: a busy-wait never ends, or the call
  makes an access outside an object (`Action.fault`, undefined behaviour in
  C), after which the model follows it no further.
* `uint8_t` and `uint16_t` values are natural numbers reduced `% 256` and
  `% 65536` where the C code stores them; buffer bytes are `Fin 256`.
* A buffer is the list of its cells. Pointer-and-length arguments are recorded
  in the `Action` as they are passed, so a range that leaves its buffer shows
  in the trace. A store through the NULL handle and a `memcpy` that leaves
  one of its two buffers are faults.
* The numeric values of `OPTIGA_COMMS_SUCCESS` and `OPTIGA_COMMS_BUSY` come
  from a header that is not part of the file; they are the parameter
  `CommsCodes`.
-/

namespace ProvisioningSM

/-! ## Constants and data -/

/-- One `uint8_t` cell of a buffer. -/
abbrev Byte := Fin 256

/-- The cast `(uint8_t) n`. -/
def toByte (n : Nat) : Byte := ⟨n % 256, Nat.mod_lt n (by decide)⟩

/-- `#define PEER_DATA_BUFFER (2000-2)`. -/
def PEER_DATA_BUFFER : Nat := 2000 - 2

/-- `#define INIT_STATE (0x00U)`. -/
def INIT_STATE : Nat := 0x00

/-- `#define RX_STATE (0x01U)`. -/
def RX_STATE : Nat := 0x01

/-- `#define TX_STATE (0x02U)`. -/
def TX_STATE : Nat := 0x02

/-- `#define ERROR_STATE (0x03U)`. -/
def ERROR_STATE : Nat := 0x03

/-- The two status codes of `optiga_comms.h` the file names. The header is not
part of the file, so their values are a parameter of the model. -/
structure CommsCodes where
  OPTIGA_COMMS_SUCCESS : Nat
  OPTIGA_COMMS_BUSY : Nat
  deriving DecidableEq, Repr

/-- The globals of the file, and the function-static `buffer_length` of
`provisioning_state_machine`. `p_comms` is the transport handle, kept as an
opaque number. -/
structure Machine where
  state : Nat
  p_comms : Nat
  peer_data_buffer : List Byte
  optiga_comms_status : Nat
  chip_reponse_buffer : List Byte
  buffer_length : Nat
  deriving DecidableEq, Repr

/-- What the collaborators answer during one call of
`provisioning_state_machine`.

* `handle`: the result of `optiga_comms_create`;
* `open_ret`: the return value of `optiga_comms_open`;
* `events`: the status codes the transport hands to `optiga_comms_callback`
  while the relay polls, in order of delivery;
* `read_ret`, `read_data`: return value of `pal_logger_read` and the bytes it
  stored into the buffer it was given;
* `xcv_ret`, `rx_data`, `rx_len`: return value of `optiga_comms_transceive`,
  the bytes it stored into the receive buffer and the value it left in
  `*p_rx_data_len`;
* `write_ret`: the return value of `pal_logger_write`. -/
structure Env where
  handle : Nat
  open_ret : Nat
  events : List Nat
  read_ret : Nat
  read_data : List Byte
  xcv_ret : Nat
  rx_data : List Byte
  rx_len : Nat
  write_ret : Nat
  deriving DecidableEq, Repr

/-- A call the relay makes to a collaborator, with the arguments that matter.

* `comms_open status`: `optiga_comms_open`, with the completion status at the
  moment of the call;
* `read len`: `pal_logger_read (_, peer_data_buffer, len)`;
* `transceive status tx_off tx_len tx_data rx_cap`: `optiga_comms_transceive`
  with outbound pointer `peer_data_buffer + tx_off`, outbound length `tx_len`,
  inbound length argument `*p_rx_data_len = rx_cap`; `tx_data` are the bytes of
  `peer_data_buffer` the range `tx_off .. tx_off + tx_len - 1` covers;
* `memcpy dst_off len`: `memcpy (peer_data_buffer + dst_off,
  chip_reponse_buffer, len)`;
* `write frame`: `pal_logger_write` of the bytes `frame`;
* `fault`: the call makes an access outside an object (a store through the
  NULL handle, a copy that leaves a buffer); the behaviour of the C program is
  undefined from here on, and the trace ends. -/
inductive Action where
  | comms_open (status : Nat)
  | read (len : Nat)
  | transceive (status tx_off tx_len : Nat) (tx_data : List Byte) (rx_cap : Nat)
  | memcpy (dst_off len : Nat)
  | write (frame : List Byte)
  | fault
  deriving DecidableEq, Repr

/-- The observable course of a call: the collaborator calls made, and the
value the call returns with; `none` when the call does not return: either a
busy-wait whose exit status is never delivered, or a fault, in which case the
trace ends with `Action.fault`. -/
structure Run (α : Type) where
  trace : List Action
  result : Option α
  deriving DecidableEq, Repr

/-! ## Buffer primitives -/

/-- A collaborator stores `data` at the start of `buf` (at most `buf.length`
bytes of it); the rest of `buf` keeps its content. -/
def store (buf data : List Byte) : List Byte :=
  data.take buf.length ++ buf.drop data.length

/-- The effect of `memcpy (dst + off, src, n)` on `dst`: the cells
`off .. off + n - 1` of `dst` receive the first `n` bytes of `src`. When the
range leaves `dst` (`off + n` exceeds its size) or `src` (`n` exceeds its
size), the copy reads or writes outside the object and there is no defined
result: `none`. -/
def memcpy (dst : List Byte) (off : Nat) (src : List Byte) (n : Nat) :
    Option (List Byte) :=
  if off + n ≤ dst.length ∧ n ≤ src.length then
    some (dst.take off ++ src.take n ++ dst.drop (off + n))
  else none

/-- The value `(uint16_t)((b[0] << 8) | b[1])` of the first two bytes. -/
def actual_apdu_length (b : List Byte) : Nat :=
  (((b.getD 0 0).val <<< 8) ||| (b.getD 1 0).val) % 65536

/-! ## The functions of the file -/

/-- `optiga_comms_callback`: stores the event in the `uint8_t` status. -/
def optiga_comms_callback (m : Machine) (event : Nat) : Machine :=
  { m with optiga_comms_status := event % 256 }

/-- The busy-wait `while (!done optiga_comms_status);`. The status is polled;
between two polls the callback delivers the next event. When the events are
used up and the status still does not end the loop, it never ends. -/
def spin (done : Nat → Bool) : Machine → List Nat → Option Machine
  | m, [] => if done m.optiga_comms_status then some m else none
  | m, e :: es =>
    if done m.optiga_comms_status then some m
    else spin done (optiga_comms_callback m e) es

/-- `comms_open (&p_comms)`: the returned `int` and the machine. The result of
`optiga_comms_create` is stored in `p_comms`; the next line stores through it
(`(*pp_comms)->p_pal_os_event_ctx = ...`) without a check, so a NULL handle
(0) is a fault before `optiga_comms_open` is called. -/
def comms_open (c : CommsCodes) (env : Env) (m : Machine) : Run (Nat × Machine) :=
  let m1 := { m with p_comms := env.handle }
  if m1.p_comms = 0 then ⟨[Action.fault], none⟩
  else
    let m2 := { m1 with optiga_comms_status := c.OPTIGA_COMMS_BUSY % 256 }
    let tr := [Action.comms_open m2.optiga_comms_status]
    if 0 ≠ env.open_ret then ⟨tr, some (1, m2)⟩
    else
      match spin (fun s => s == 0) m2 env.events with
      | some m3 => ⟨tr, some (0, m3)⟩
      | none => ⟨tr, none⟩

/-- `transceive_to_chip (p_comms, peer_data_buffer + tx_off, tx_len,
chip_reponse_buffer, &buffer_length)`, the one way the file calls it. -/
def transceive_to_chip (c : CommsCodes) (env : Env) (m : Machine)
    (tx_off tx_len : Nat) : Run (Nat × Machine) :=
  let m1 := { m with optiga_comms_status := c.OPTIGA_COMMS_BUSY % 256 }
  let tr := [Action.transceive m1.optiga_comms_status tx_off tx_len
    ((m1.peer_data_buffer.drop tx_off).take tx_len) m1.buffer_length]
  let m2 := { m1 with
    chip_reponse_buffer := store m1.chip_reponse_buffer env.rx_data
    buffer_length := env.rx_len % 65536 }
  if c.OPTIGA_COMMS_SUCCESS ≠ env.xcv_ret then ⟨tr, some (1, m2)⟩
  else
    match spin (fun s => c.OPTIGA_COMMS_SUCCESS == s) m2 env.events with
    | some m3 => ⟨tr, some (0, m3)⟩
    | none => ⟨tr, none⟩

/-- One call of `provisioning_state_machine`. -/
def provisioning_state_machine (c : CommsCodes) (env : Env) (m : Machine) : Run Machine :=
  if m.state = INIT_STATE then
    match comms_open c env m with
    | ⟨tr, none⟩ => ⟨tr, none⟩
    | ⟨tr, some (error, m1)⟩ =>
      if error ≠ 0 then ⟨tr, some { m1 with state := ERROR_STATE }⟩
      else ⟨tr, some { m1 with state := RX_STATE }⟩
  else if m.state = RX_STATE then
    let m1 := { m with peer_data_buffer := store m.peer_data_buffer env.read_data }
    let tr := [Action.read PEER_DATA_BUFFER]
    if env.read_ret ≠ 0 then ⟨tr, some { m1 with state := ERROR_STATE }⟩
    else
      let len := actual_apdu_length m1.peer_data_buffer
      let m2 := { m1 with buffer_length := PEER_DATA_BUFFER }
      match transceive_to_chip c env m2 2 len with
      | ⟨tr2, none⟩ => ⟨tr ++ tr2, none⟩
      | ⟨tr2, some (error, m3)⟩ =>
        if error ≠ 0 then ⟨tr ++ tr2, some { m3 with state := ERROR_STATE }⟩
        else ⟨tr ++ tr2, some { m3 with state := TX_STATE }⟩
  else if m.state = TX_STATE then
    let b0 := m.peer_data_buffer.set 0 (toByte (m.buffer_length >>> 8))
    let b1 := b0.set 1 (toByte m.buffer_length)
    match memcpy b1 2 m.chip_reponse_buffer m.buffer_length with
    | none => ⟨[Action.memcpy 2 m.buffer_length, Action.fault], none⟩
    | some b2 =>
      let m1 := { m with peer_data_buffer := b2 }
      let tr := [Action.memcpy 2 m.buffer_length, Action.write (b2.take PEER_DATA_BUFFER)]
      if env.write_ret ≠ 0 then ⟨tr, some { m1 with state := ERROR_STATE }⟩
      else ⟨tr, some { m1 with state := RX_STATE }⟩
  else if m.state = ERROR_STATE then
    let b := (((m.peer_data_buffer.set 0 0x00).set 1 0x02).set 2 0xFF).set 3 0xFF
    let m1 := { m with peer_data_buffer := b }
    ⟨[Action.write (b.take PEER_DATA_BUFFER)], some { m1 with state := RX_STATE }⟩
  else ⟨[], some m⟩

/-- The globals as the program starts: `state = INIT_STATE`,
`optiga_comms_status = OPTIGA_COMMS_BUSY`, everything else zero. -/
def init (c : CommsCodes) : Machine :=
  { state := INIT_STATE
    p_comms := 0
    peer_data_buffer := List.replicate PEER_DATA_BUFFER 0
    optiga_comms_status := c.OPTIGA_COMMS_BUSY % 256
    chip_reponse_buffer := List.replicate PEER_DATA_BUFFER 0
    buffer_length := 0 }

/-- Both buffers have the size of their declaration,
`uint8_t peer_data_buffer[PEER_DATA_BUFFER]` and
`uint8_t chip_reponse_buffer[PEER_DATA_BUFFER]`. -/
def WellSized (m : Machine) : Prop :=
  m.peer_data_buffer.length = PEER_DATA_BUFFER ∧
  m.chip_reponse_buffer.length = PEER_DATA_BUFFER

instance (m : Machine) : Decidable (WellSized m) := by
  unfold WellSized; infer_instance

/-- The states seen at the entry of successive calls, one call per element of
`envs`, and the state after the last call. The list ends early at a call that
does not return. -/
def trajectory (c : CommsCodes) : Machine → List Env → List Nat
  | m, [] => [m.state]
  | m, e :: es =>
    m.state :: (match (provisioning_state_machine c e m).result with
      | some m1 => trajectory c m1 es
      | none => [])


/-! ## Definitions used to state the properties -/

/-- The peer frame buffer after the `Error` state has packed the sentinel. -/
def sentinel_packed (b : List Byte) : List Byte :=
  (((b.set 0 0x00).set 1 0x02).set 2 0xFF).set 3 0xFF

/-- The peer frame buffer after the `Transmitting` state has stored the two
length bytes, at the moment `memcpy` is called. -/
def length_packed (m : Machine) : List Byte :=
  (m.peer_data_buffer.set 0 (toByte (m.buffer_length >>> 8))).set 1 (toByte m.buffer_length)

/-- The peer frame buffer after the `Transmitting` state has packed the
response, when the copy stays inside both buffers. -/
def response_packed (m : Machine) : List Byte :=
  (length_packed m).take 2 ++ m.chip_reponse_buffer.take m.buffer_length ++
    (length_packed m).drop (2 + m.buffer_length)

/-- The machine in the `Receiving` state after the read, at the moment
`transceive_to_chip` is called. -/
def rx_read (env : Env) (m : Machine) : Machine :=
  { m with
    peer_data_buffer := store m.peer_data_buffer env.read_data
    buffer_length := PEER_DATA_BUFFER }

/-- The machine at the moment `transceive_to_chip` starts to poll, in the
`Receiving` state: the frame is read, the transceive is issued. -/
def rx_issued (c : CommsCodes) (env : Env) (m : Machine) : Machine :=
  { m with
    peer_data_buffer := store m.peer_data_buffer env.read_data
    optiga_comms_status := c.OPTIGA_COMMS_BUSY % 256
    chip_reponse_buffer := store m.chip_reponse_buffer env.rx_data
    buffer_length := env.rx_len % 65536 }

/-- The machine at the moment `comms_open` starts to poll, in the `Init`
state. -/
def open_issued (c : CommsCodes) (env : Env) (m : Machine) : Machine :=
  { m with p_comms := env.handle, optiga_comms_status := c.OPTIGA_COMMS_BUSY % 256 }

/-- The transceive the `Receiving` state issues after a read. -/
def rx_transceive (c : CommsCodes) (env : Env) (m : Machine) : Action :=
  Action.transceive (c.OPTIGA_COMMS_BUSY % 256) 2
    (actual_apdu_length (store m.peer_data_buffer env.read_data))
    (((store m.peer_data_buffer env.read_data).drop 2).take
      (actual_apdu_length (store m.peer_data_buffer env.read_data)))
    PEER_DATA_BUFFER

/-- The four failure causes: (a) in Init, `optiga_comms_open` is called, on
the handle `optiga_comms_create` returned (not NULL), and is not issued;
(b) in Receiving, `pal_logger_read` fails; (c) in Receiving, after a read,
`optiga_comms_transceive` is not issued; (d) in Transmitting,
`pal_logger_write` is called, the copy before it having stayed inside the
peer frame buffer, and fails. -/
def FailureCause (c : CommsCodes) (env : Env) (m : Machine) : Prop :=
  (m.state = INIT_STATE ∧ env.handle ≠ 0 ∧ env.open_ret ≠ 0) ∨
  (m.state = RX_STATE ∧ env.read_ret ≠ 0) ∨
  (m.state = RX_STATE ∧ env.read_ret = 0 ∧ c.OPTIGA_COMMS_SUCCESS ≠ env.xcv_ret) ∨
  (m.state = TX_STATE ∧ m.buffer_length + 2 ≤ PEER_DATA_BUFFER ∧ env.write_ret ≠ 0)

instance (c : CommsCodes) (env : Env) (m : Machine) : Decidable (FailureCause c env m) := by
  unfold FailureCause; infer_instance

/-- Every collaborator call of one relay call succeeds, as the code reads
success: `optiga_comms_create` returns a handle (not NULL);
`optiga_comms_open` returns 0 and the callback delivers a status whose stored
byte is 0; `pal_logger_read` returns 0; `optiga_comms_transceive` returns
`OPTIGA_COMMS_SUCCESS`, the callback delivers a status whose stored byte is
`OPTIGA_COMMS_SUCCESS`, and the response length it reports fits a peer frame
(`rx_len + 2 ≤ PEER_DATA_BUFFER`); `pal_logger_write` returns 0. -/
def AllSucceed (c : CommsCodes) (e : Env) : Prop :=
  e.handle ≠ 0 ∧
  e.open_ret = 0 ∧ (∃ ev ∈ e.events, ev % 256 = 0) ∧ e.read_ret = 0 ∧
  c.OPTIGA_COMMS_SUCCESS = e.xcv_ret ∧ (∃ ev ∈ e.events, c.OPTIGA_COMMS_SUCCESS = ev % 256) ∧
  e.rx_len + 2 ≤ PEER_DATA_BUFFER ∧
  e.write_ret = 0

instance (c : CommsCodes) (e : Env) : Decidable (AllSucceed c e) := by
  unfold AllSucceed; infer_instance

/-- The machine can make its next call without a fault in the copy of the
`Transmitting` state: the buffers have their size and, in `Transmitting`, the
response fits behind the two length bytes. -/
def Ready (m : Machine) : Prop :=
  WellSized m ∧ (m.state = TX_STATE → m.buffer_length + 2 ≤ PEER_DATA_BUFFER)

instance (m : Machine) : Decidable (Ready m) := by
  unfold Ready; infer_instance

/-- The state at the entry of call number `i` (from 0) of an unbroken chain:
Init, then Receiving and Transmitting in turn. -/
def expected_state (i : Nat) : Nat :=
  if i = 0 then INIT_STATE else if i % 2 = 1 then RX_STATE else TX_STATE

/-! ## Example data -/

/-- Status codes for the examples: success `0x0000`, busy `0x0001`. -/
def example_codes : CommsCodes := ⟨0x0000, 0x0001⟩

/-- The frame `00 05 'H' 'E' 'L' 'L' 'O'`, padded to the size of a transfer. -/
def hello_frame : List Byte :=
  0x00 :: 0x05 :: 72 :: 69 :: 76 :: 76 :: 79 :: List.replicate 1991 0

/-- Every collaborator succeeds; the peer sends `hello_frame`, the chip echoes
the five bytes of its payload. -/
def env_hello : Env :=
  { handle := 1, open_ret := 0, events := [0], read_ret := 0, read_data := hello_frame,
    xcv_ret := 0, rx_data := [72, 69, 76, 76, 79], rx_len := 5, write_ret := 0 }

/-- A machine that is about to receive, the transport open. -/
def rx_start : Machine := { init example_codes with state := RX_STATE, p_comms := 1 }

/-- The machine after `rx_start` has received `env_hello`. -/
def after_hello : Machine :=
  { rx_issued example_codes env_hello rx_start with
    state := TX_STATE, optiga_comms_status := 0 }

/-- A machine in the `Error` state. -/
def error_start : Machine :=
  { init example_codes with state := ERROR_STATE, p_comms := 1 }

/-- A frame whose two length bytes `07 CD` declare 1997 payload bytes, one more
than the 1996 a transfer can carry. -/
def long_frame : List Byte := 0x07 :: 0xCD :: List.replicate 1996 0

/-- Every collaborator succeeds; the peer sends `long_frame`. -/
def env_long : Env := { env_hello with read_data := long_frame }

/-- Every collaborator succeeds; the chip answers with 1998 bytes, the inbound
capacity it was offered. -/
def env_full : Env :=
  { env_hello with rx_data := List.replicate 1998 0xAA, rx_len := 1998 }

/-- The callback delivers the one status `0x0102`, an error code. -/
def env_error_status : Env := { env_hello with events := [0x0102] }

/-! ## Buffer and arithmetic lemmas -/

theorem length_store (buf data : List Byte) : (store buf data).length = buf.length := by
  simp only [store, List.length_append, List.length_take, List.length_drop]
  omega

theorem store_full (buf data : List Byte) (h : data.length = buf.length) :
    store buf data = data := by
  simp [store, ← h]

theorem store_take (buf data : List Byte) (n : Nat) (hn : n ≤ data.length)
    (hb : data.length ≤ buf.length) : (store buf data).take n = data.take n := by
  simp only [store]
  rw [List.take_of_length_le hb, List.take_append_of_le_length hn]

theorem memcpy_eq_some (dst src : List Byte) (off n : Nat) (ho : off + n ≤ dst.length)
    (hs : n ≤ src.length) :
    memcpy dst off src n = some (dst.take off ++ src.take n ++ dst.drop (off + n)) := by
  simp [memcpy, ho, hs]

theorem memcpy_eq_none (dst src : List Byte) (off n : Nat)
    (h : dst.length < off + n ∨ src.length < n) : memcpy dst off src n = none := by
  have : ¬ (off + n ≤ dst.length ∧ n ≤ src.length) := by omega
  simp [memcpy, this]

theorem length_memcpy (dst src b : List Byte) (off n : Nat)
    (h : memcpy dst off src n = some b) : b.length = dst.length := by
  unfold memcpy at h
  split at h
  · rename_i hc
    simp only [Option.some.injEq] at h
    subst h
    simp only [List.length_append, List.length_take, List.length_drop]
    omega
  · cases h

theorem toByte_val (n : Nat) : (toByte n).val = n % 256 := rfl

theorem toByte_hi (n : Nat) (h : n < 65536) : (toByte (n >>> 8)).val = n / 256 := by
  rw [toByte_val, Nat.shiftRight_eq_div_pow]
  have : n / 2 ^ 8 < 256 := by omega
  omega

theorem actual_apdu_length_eq (b : List Byte) :
    actual_apdu_length b = 256 * (b.getD 0 0).val + (b.getD 1 0).val := by
  have h0 := (b.getD 0 0).isLt
  have h1 := (b.getD 1 0).isLt
  unfold actual_apdu_length
  rw [Nat.shiftLeft_eq, Nat.mul_comm _ (2 ^ 8),
    ← Nat.mul_add_lt_is_or (by simp) (b.getD 0 0).val]
  omega

theorem actual_apdu_length_lt (b : List Byte) : actual_apdu_length b < 65536 := by
  unfold actual_apdu_length
  omega

/-! ## The busy-wait -/

theorem spin_frame (done : Nat → Bool) (evs : List Nat) (m m1 : Machine)
    (h : spin done m evs = some m1) :
    m1 = { m with optiga_comms_status := m1.optiga_comms_status } ∧
      done m1.optiga_comms_status = true := by
  induction evs generalizing m with
  | nil =>
    simp only [spin] at h
    split at h
    · cases h; exact ⟨rfl, by assumption⟩
    · cases h
  | cons e es ih =>
    simp only [spin] at h
    split at h
    · cases h; exact ⟨rfl, by assumption⟩
    · obtain ⟨h1, h2⟩ := ih _ h
      refine ⟨?_, h2⟩
      rw [h1]
      simp [optiga_comms_callback]

theorem spin_eq_none_iff (done : Nat → Bool) (evs : List Nat) (m : Machine) :
    spin done m evs = none ↔
      done m.optiga_comms_status = false ∧ ∀ e ∈ evs, done (e % 256) = false := by
  induction evs generalizing m with
  | nil => simp [spin]
  | cons e es ih =>
    simp only [spin]
    split
    · simp_all
    · rw [ih]
      simp_all [optiga_comms_callback]

theorem spin_some_of_event (done : Nat → Bool) (evs : List Nat) (m : Machine)
    (h : done m.optiga_comms_status = true ∨ ∃ e ∈ evs, done (e % 256) = true) :
    ∃ m1, spin done m evs = some m1 := by
  cases hs : spin done m evs with
  | some m1 => exact ⟨m1, rfl⟩
  | none =>
    rw [spin_eq_none_iff] at hs
    rcases h with h | ⟨e, he, h⟩
    · simp [hs.1] at h
    · simp [hs.2 e he] at h

/-! ## One call, state by state -/

theorem error_step (c : CommsCodes) (env : Env) (m : Machine) (h : m.state = ERROR_STATE) :
    provisioning_state_machine c env m =
      ⟨[Action.write ((sentinel_packed m.peer_data_buffer).take PEER_DATA_BUFFER)],
        some { m with peer_data_buffer := sentinel_packed m.peer_data_buffer,
                      state := RX_STATE }⟩ := by
  simp [provisioning_state_machine, h, sentinel_packed, ERROR_STATE, INIT_STATE, RX_STATE,
    TX_STATE]

theorem length_packed_length (m : Machine) :
    (length_packed m).length = m.peer_data_buffer.length := by
  simp [length_packed]

theorem tx_step_copy (c : CommsCodes) (env : Env) (m : Machine) (h : m.state = TX_STATE) :
    provisioning_state_machine c env m =
      match memcpy (length_packed m) 2 m.chip_reponse_buffer m.buffer_length with
      | none => ⟨[Action.memcpy 2 m.buffer_length, Action.fault], none⟩
      | some b2 =>
        ⟨[Action.memcpy 2 m.buffer_length, Action.write (b2.take PEER_DATA_BUFFER)],
          some { m with peer_data_buffer := b2,
                        state := if env.write_ret ≠ 0 then ERROR_STATE else RX_STATE }⟩ := by
  simp only [provisioning_state_machine, h, length_packed, INIT_STATE, RX_STATE, TX_STATE]
  generalize memcpy _ 2 m.chip_reponse_buffer m.buffer_length = r
  cases r with
  | none => simp
  | some b2 => by_cases hw : env.write_ret = 0 <;> simp [hw]

theorem tx_copy_in_range (m : Machine) (hw : WellSized m)
    (hn : m.buffer_length + 2 ≤ PEER_DATA_BUFFER) :
    memcpy (length_packed m) 2 m.chip_reponse_buffer m.buffer_length =
      some (response_packed m) := by
  rw [memcpy_eq_some _ _ _ _ (by rw [length_packed_length, hw.1]; omega)
    (by rw [hw.2]; omega)]
  rfl

theorem tx_step (c : CommsCodes) (env : Env) (m : Machine) (h : m.state = TX_STATE)
    (hw : WellSized m) (hn : m.buffer_length + 2 ≤ PEER_DATA_BUFFER) :
    provisioning_state_machine c env m =
      ⟨[Action.memcpy 2 m.buffer_length,
          Action.write ((response_packed m).take PEER_DATA_BUFFER)],
        some { m with peer_data_buffer := response_packed m,
                      state := if env.write_ret ≠ 0 then ERROR_STATE else RX_STATE }⟩ := by
  rw [tx_step_copy c env m h, tx_copy_in_range m hw hn]

theorem tx_step_fault (c : CommsCodes) (env : Env) (m : Machine) (h : m.state = TX_STATE)
    (hw : WellSized m) (hn : PEER_DATA_BUFFER < m.buffer_length + 2) :
    provisioning_state_machine c env m =
      ⟨[Action.memcpy 2 m.buffer_length, Action.fault], none⟩ := by
  rw [tx_step_copy c env m h,
    memcpy_eq_none _ _ _ _ (Or.inl (by rw [length_packed_length, hw.1]; omega))]

theorem rx_step_read_fail (c : CommsCodes) (env : Env) (m : Machine) (h : m.state = RX_STATE)
    (hr : env.read_ret ≠ 0) :
    provisioning_state_machine c env m =
      ⟨[Action.read PEER_DATA_BUFFER],
        some { m with peer_data_buffer := store m.peer_data_buffer env.read_data,
                      state := ERROR_STATE }⟩ := by
  simp [provisioning_state_machine, h, hr, INIT_STATE, RX_STATE]

theorem rx_step_trace (c : CommsCodes) (env : Env) (m : Machine) (h : m.state = RX_STATE)
    (hr : env.read_ret = 0) :
    (provisioning_state_machine c env m).trace =
      [Action.read PEER_DATA_BUFFER, rx_transceive c env m] := by
  simp only [provisioning_state_machine, h, hr, transceive_to_chip, rx_transceive]
  by_cases hx : c.OPTIGA_COMMS_SUCCESS = env.xcv_ret
  · simp only [INIT_STATE, RX_STATE, hx]
    generalize spin _ _ env.events = r
    cases r <;> simp
  · simp [INIT_STATE, RX_STATE, hx]

theorem rx_step_issue_fail (c : CommsCodes) (env : Env) (m : Machine) (h : m.state = RX_STATE)
    (hr : env.read_ret = 0) (hx : c.OPTIGA_COMMS_SUCCESS ≠ env.xcv_ret) :
    (provisioning_state_machine c env m).result =
      some { rx_issued c env m with state := ERROR_STATE } := by
  simp [provisioning_state_machine, h, hr, hx, transceive_to_chip, rx_issued, INIT_STATE,
    RX_STATE]

theorem rx_step_polled (c : CommsCodes) (env : Env) (m : Machine) (h : m.state = RX_STATE)
    (hr : env.read_ret = 0) (hx : c.OPTIGA_COMMS_SUCCESS = env.xcv_ret) :
    (provisioning_state_machine c env m).result =
      (spin (fun s => c.OPTIGA_COMMS_SUCCESS == s) (rx_issued c env m) env.events).map
        (fun m3 => { m3 with state := TX_STATE }) := by
  simp only [provisioning_state_machine, h, hr, transceive_to_chip, rx_issued]
  simp only [INIT_STATE, RX_STATE, hx]
  generalize spin _ _ env.events = r
  cases r <;> simp

theorem init_step_fault (c : CommsCodes) (env : Env) (m : Machine)
    (h : m.state = INIT_STATE) (hh : env.handle = 0) :
    provisioning_state_machine c env m = ⟨[Action.fault], none⟩ := by
  simp [provisioning_state_machine, h, comms_open, hh]

theorem init_step_trace (c : CommsCodes) (env : Env) (m : Machine) (h : m.state = INIT_STATE)
    (hh : env.handle ≠ 0) :
    (provisioning_state_machine c env m).trace =
      [Action.comms_open (c.OPTIGA_COMMS_BUSY % 256)] := by
  simp only [provisioning_state_machine, h, comms_open, hh, if_false]
  by_cases ho : env.open_ret = 0
  · simp only [ho]
    generalize spin _ _ env.events = r
    cases r <;> simp
  · have : 0 ≠ env.open_ret := fun h0 => ho h0.symm
    simp [this]

theorem init_step_issue_fail (c : CommsCodes) (env : Env) (m : Machine)
    (h : m.state = INIT_STATE) (hh : env.handle ≠ 0) (ho : env.open_ret ≠ 0) :
    (provisioning_state_machine c env m).result =
      some { open_issued c env m with state := ERROR_STATE } := by
  have : 0 ≠ env.open_ret := fun h0 => ho h0.symm
  simp [provisioning_state_machine, h, comms_open, open_issued, this, hh]

theorem comms_open_polled (c : CommsCodes) (env : Env) (m : Machine)
    (hh : env.handle ≠ 0) (ho : env.open_ret = 0) :
    (comms_open c env m).result =
      (spin (fun s => s == 0) (open_issued c env m) env.events).map (fun m3 => (0, m3)) := by
  simp only [comms_open, open_issued, ho, hh, if_false]
  generalize spin _ _ env.events = r
  cases r <;> simp

theorem init_step_polled (c : CommsCodes) (env : Env) (m : Machine)
    (h : m.state = INIT_STATE) (hh : env.handle ≠ 0) (ho : env.open_ret = 0) :
    (provisioning_state_machine c env m).result =
      (spin (fun s => s == 0) (open_issued c env m) env.events).map
        (fun m3 => { m3 with state := RX_STATE }) := by
  simp only [provisioning_state_machine, h, comms_open, open_issued, ho, hh, if_false]
  generalize spin _ _ env.events = r
  cases r <;> simp

/-! ## The frames handed to the peer channel -/

theorem sentinel_packed_length (b : List Byte) : (sentinel_packed b).length = b.length := by
  simp [sentinel_packed]

theorem sentinel_packed_take (b : List Byte) (h : 4 ≤ b.length) :
    (sentinel_packed b).take 4 = [0x00, 0x02, 0xFF, 0xFF] := by
  match b, h with
  | _ :: _ :: _ :: _ :: _, _ => simp [sentinel_packed]

theorem sentinel_frame (b : List Byte) (h : b.length = PEER_DATA_BUFFER) :
    ((sentinel_packed b).take PEER_DATA_BUFFER).length = PEER_DATA_BUFFER ∧
      ((sentinel_packed b).take PEER_DATA_BUFFER).take 4 = [0x00, 0x02, 0xFF, 0xFF] := by
  have h4 : 4 ≤ b.length := by rw [h]; decide
  refine ⟨by simp [sentinel_packed_length, h], ?_⟩
  rw [List.take_take, show min 4 PEER_DATA_BUFFER = 4 from by decide]
  exact sentinel_packed_take b h4

theorem set_set_eq (b : List Byte) (x y : Byte) (h : 2 ≤ b.length) :
    (b.set 0 x).set 1 y = x :: y :: b.drop 2 := by
  match b, h with
  | _ :: _ :: _, _ => simp

theorem response_packed_eq (m : Machine) (h : 2 ≤ m.peer_data_buffer.length) :
    response_packed m =
      toByte (m.buffer_length >>> 8) :: toByte m.buffer_length ::
        (m.chip_reponse_buffer.take m.buffer_length ++
          m.peer_data_buffer.drop (2 + m.buffer_length)) := by
  unfold response_packed length_packed
  rw [set_set_eq _ _ _ h]
  have e2 : ∀ (x y : Byte) (t : List Byte), List.drop (2 + m.buffer_length) (x :: y :: t) =
      List.drop m.buffer_length t := by
    intro x y t
    rw [show 2 + m.buffer_length = m.buffer_length + 1 + 1 from by omega]
    rfl
  rw [e2, List.drop_drop]
  rfl

theorem response_packed_length (m : Machine) (h : WellSized m)
    (hn : m.buffer_length + 2 ≤ PEER_DATA_BUFFER) :
    (response_packed m).length = PEER_DATA_BUFFER := by
  rw [length_memcpy _ _ _ _ _ (tx_copy_in_range m h hn), length_packed_length, h.1]

theorem response_frame (m : Machine) (h : WellSized m)
    (hn : m.buffer_length + 2 ≤ PEER_DATA_BUFFER) :
    ∃ b0 b1 rest, (response_packed m).take PEER_DATA_BUFFER = b0 :: b1 :: rest ∧
      b0.val = m.buffer_length / 256 ∧ b1.val = m.buffer_length % 256 ∧
      rest.take m.buffer_length = m.chip_reponse_buffer.take m.buffer_length ∧
      rest.drop m.buffer_length = m.peer_data_buffer.drop (2 + m.buffer_length) := by
  have hl := response_packed_length m h hn
  have h2 : 2 ≤ m.peer_data_buffer.length := by rw [h.1]; decide
  have hlt : m.buffer_length < 65536 := by
    have : PEER_DATA_BUFFER = 1998 := rfl
    omega
  have hc : (m.chip_reponse_buffer.take m.buffer_length).length = m.buffer_length := by
    rw [List.length_take, h.2]; omega
  refine ⟨toByte (m.buffer_length >>> 8), toByte m.buffer_length,
    m.chip_reponse_buffer.take m.buffer_length ++
      m.peer_data_buffer.drop (2 + m.buffer_length), ?_, toByte_hi _ hlt,
    toByte_val _, ?_, ?_⟩
  · rw [List.take_of_length_le (by rw [hl]), response_packed_eq m h2]
  · rw [List.take_append_of_le_length (by rw [hc]), List.take_of_length_le (by rw [hc])]
  · rw [List.drop_append_of_le_length (by rw [hc]), List.drop_of_length_le (by rw [hc]),
      List.nil_append]

/-! ## Buffer sizes are kept -/

theorem spin_buffers (done : Nat → Bool) (evs : List Nat) (m m1 : Machine)
    (h : spin done m evs = some m1) :
    m1.state = m.state ∧ m1.peer_data_buffer = m.peer_data_buffer ∧
      m1.chip_reponse_buffer = m.chip_reponse_buffer ∧ m1.buffer_length = m.buffer_length := by
  obtain ⟨e, _⟩ := spin_frame done evs m m1 h
  rw [e]
  exact ⟨rfl, rfl, rfl, rfl⟩

theorem wellSized_step (c : CommsCodes) (env : Env) (m m1 : Machine) (h : WellSized m)
    (hr : (provisioning_state_machine c env m).result = some m1) : WellSized m1 := by
  by_cases h0 : m.state = INIT_STATE
  · by_cases hh : env.handle = 0
    · rw [init_step_fault c env m h0 hh] at hr
      cases hr
    by_cases ho : env.open_ret = 0
    · rw [init_step_polled c env m h0 hh ho] at hr
      cases hs : spin (fun s => s == 0) (open_issued c env m) env.events with
      | none => simp [hs] at hr
      | some m3 =>
        obtain ⟨_, hp, hc, _⟩ := spin_buffers _ _ _ _ hs
        simp only [hs, Option.map_some', Option.some.injEq] at hr
        subst hr
        exact ⟨by simpa [hp, open_issued] using h.1, by simpa [hc, open_issued] using h.2⟩
    · rw [init_step_issue_fail c env m h0 hh ho, Option.some.injEq] at hr
      subst hr
      exact h
  by_cases h1 : m.state = RX_STATE
  · by_cases hrd : env.read_ret = 0
    · by_cases hx : c.OPTIGA_COMMS_SUCCESS = env.xcv_ret
      · rw [rx_step_polled c env m h1 hrd hx] at hr
        cases hs : spin (fun s => c.OPTIGA_COMMS_SUCCESS == s) (rx_issued c env m)
          env.events with
        | none => simp [hs] at hr
        | some m3 =>
          obtain ⟨_, hp, hc, _⟩ := spin_buffers _ _ _ _ hs
          simp only [hs, Option.map_some', Option.some.injEq] at hr
          subst hr
          exact ⟨by simpa [hp, rx_issued, length_store] using h.1,
            by simpa [hc, rx_issued, length_store] using h.2⟩
      · rw [rx_step_issue_fail c env m h1 hrd hx, Option.some.injEq] at hr
        subst hr
        exact ⟨by simpa [rx_issued, length_store] using h.1,
          by simpa [rx_issued, length_store] using h.2⟩
    · rw [rx_step_read_fail c env m h1 hrd] at hr
      simp only [Option.some.injEq] at hr
      subst hr
      exact ⟨by simpa [length_store] using h.1, h.2⟩
  by_cases h2 : m.state = TX_STATE
  · rw [tx_step_copy c env m h2] at hr
    cases hmc : memcpy (length_packed m) 2 m.chip_reponse_buffer m.buffer_length with
    | none => simp [hmc] at hr
    | some b2 =>
      simp only [hmc, Option.some.injEq] at hr
      subst hr
      exact ⟨by rw [length_memcpy _ _ _ _ _ hmc, length_packed_length, h.1], h.2⟩
  by_cases h3 : m.state = ERROR_STATE
  · rw [error_step c env m h3] at hr
    simp only [Option.some.injEq] at hr
    subst hr
    exact ⟨by simpa [sentinel_packed_length] using h.1, h.2⟩
  · simp only [provisioning_state_machine, h0, h1, h2, h3, if_false, Option.some.injEq] at hr
    subst hr
    exact h

theorem hello_frame_length : hello_frame.length = PEER_DATA_BUFFER := by
  show (List.replicate 1991 (0 : Byte)).length + 1 + 1 + 1 + 1 + 1 + 1 + 1 = 1998
  rw [List.length_replicate]

theorem wellSized_init (c : CommsCodes) (st h : Nat) :
    WellSized { init c with state := st, p_comms := h } :=
  ⟨List.length_replicate _ _, List.length_replicate _ _⟩

theorem rx_step_success_inv (c : CommsCodes) (env : Env) (m m1 : Machine)
    (hs : m.state = RX_STATE) (h1 : (provisioning_state_machine c env m).result = some m1)
    (ht : m1.state = TX_STATE) :
    env.read_ret = 0 ∧ c.OPTIGA_COMMS_SUCCESS = env.xcv_ret ∧
      m1.peer_data_buffer = store m.peer_data_buffer env.read_data ∧
      m1.chip_reponse_buffer = store m.chip_reponse_buffer env.rx_data ∧
      m1.buffer_length = env.rx_len % 65536 ∧
      m1.optiga_comms_status = c.OPTIGA_COMMS_SUCCESS := by
  by_cases hrd : env.read_ret = 0
  · by_cases hx : c.OPTIGA_COMMS_SUCCESS = env.xcv_ret
    · rw [rx_step_polled c env m hs hrd hx] at h1
      cases hsp : spin (fun s => c.OPTIGA_COMMS_SUCCESS == s) (rx_issued c env m)
        env.events with
      | none => simp [hsp] at h1
      | some m3 =>
        obtain ⟨_, hp, hc, hb⟩ := spin_buffers _ _ _ _ hsp
        obtain ⟨_, hd⟩ := spin_frame _ _ _ _ hsp
        simp only [hsp, Option.map_some', Option.some.injEq] at h1
        subst h1
        refine ⟨hrd, hx, by simpa [rx_issued] using hp, by simpa [rx_issued] using hc,
          by simpa [rx_issued] using hb, ?_⟩
        have hd2 : c.OPTIGA_COMMS_SUCCESS = m3.optiga_comms_status := by simpa using hd
        exact hd2.symm
    · rw [rx_step_issue_fail c env m hs hrd hx, Option.some.injEq] at h1
      subst h1
      simp [ERROR_STATE, TX_STATE] at ht
  · rw [rx_step_read_fail c env m hs hrd] at h1
    simp only [Option.some.injEq] at h1
    subst h1
    simp [ERROR_STATE, TX_STATE] at ht

/-! ## Lemmas on whole calls -/

theorem failure_step (c : CommsCodes) (env : Env) (m : Machine) (hm : WellSized m)
    (hf : FailureCause c env m) :
    ∃ m1, (provisioning_state_machine c env m).result = some m1 ∧ m1.state = ERROR_STATE := by
  rcases hf with ⟨hs, hh, h⟩ | ⟨hs, h⟩ | ⟨hs, hr, h⟩ | ⟨hs, hn, h⟩
  · exact ⟨_, init_step_issue_fail c env m hs hh h, rfl⟩
  · exact ⟨_, by rw [rx_step_read_fail c env m hs h], rfl⟩
  · exact ⟨_, rx_step_issue_fail c env m hs hr h, rfl⟩
  · refine ⟨_, by rw [tx_step c env m hs hm hn], ?_⟩
    simp [h]

theorem rx_step_returns (c : CommsCodes) (env : Env) (m : Machine) (hs : m.state = RX_STATE)
    (hr : env.read_ret = 0) (hx : c.OPTIGA_COMMS_SUCCESS = env.xcv_ret)
    (hev : c.OPTIGA_COMMS_SUCCESS = c.OPTIGA_COMMS_BUSY % 256 ∨
      ∃ ev ∈ env.events, c.OPTIGA_COMMS_SUCCESS = ev % 256) :
    ∃ m1, (provisioning_state_machine c env m).result = some m1 ∧ m1.state = TX_STATE ∧
      m1.peer_data_buffer = store m.peer_data_buffer env.read_data ∧
      m1.chip_reponse_buffer = store m.chip_reponse_buffer env.rx_data ∧
      m1.buffer_length = env.rx_len % 65536 := by
  have hd : (fun s => c.OPTIGA_COMMS_SUCCESS == s) (rx_issued c env m).optiga_comms_status
        = true ∨
      ∃ e ∈ env.events, (fun s => c.OPTIGA_COMMS_SUCCESS == s) (e % 256) = true := by
    rcases hev with h | ⟨ev, hm, h⟩
    · exact Or.inl (by simp [rx_issued, ← h])
    · exact Or.inr ⟨ev, hm, by simp [← h]⟩
  obtain ⟨m3, h3⟩ := spin_some_of_event _ env.events (rx_issued c env m) hd
  obtain ⟨_, hp, hc, hb⟩ := spin_buffers _ _ _ _ h3
  exact ⟨_, by rw [rx_step_polled c env m hs hr hx, h3]; rfl, rfl, by simpa [rx_issued] using hp,
    by simpa [rx_issued] using hc, by simpa [rx_issued] using hb⟩

theorem succeed_step (c : CommsCodes) (e : Env) (m : Machine) (k : Nat)
    (he : AllSucceed c e) (hs : m.state = expected_state k) (hi : Ready m) :
    ∃ m1, (provisioning_state_machine c e m).result = some m1 ∧
      m1.state = expected_state (k + 1) ∧ Ready m1 := by
  obtain ⟨hh, ho, ⟨ev0, hev0, h0⟩, hr, hx, ⟨ev1, hev1, h1⟩, hfit, hw⟩ := he
  have hcap : PEER_DATA_BUFFER = 1998 := rfl
  by_cases hk : k = 0
  · subst hk
    have hs0 : m.state = INIT_STATE := hs
    obtain ⟨m3, h3⟩ := spin_some_of_event (fun s => s == 0) e.events (open_issued c e m)
      (Or.inr ⟨ev0, hev0, by simp [h0]⟩)
    have hres : (provisioning_state_machine c e m).result =
        some { m3 with state := RX_STATE } := by
      rw [init_step_polled c e m hs0 hh ho, h3]; rfl
    exact ⟨_, hres, rfl, wellSized_step c e m _ hi.1 hres,
      fun ht => by simp [RX_STATE, TX_STATE] at ht⟩
  · by_cases hodd : k % 2 = 1
    · have hs1 : m.state = RX_STATE := by simpa [expected_state, hk, hodd] using hs
      obtain ⟨m1, hres, ht, _, _, hb⟩ := rx_step_returns c e m hs1 hr hx
        (Or.inr ⟨ev1, hev1, h1⟩)
      refine ⟨m1, hres, ?_, wellSized_step c e m m1 hi.1 hres, fun _ => ?_⟩
      · have : (k + 1) % 2 ≠ 1 := by omega
        simp [expected_state, this, ht]
      · rw [hb]
        omega
    · have hs2 : m.state = TX_STATE := by simpa [expected_state, hk, hodd] using hs
      have hres := tx_step c e m hs2 hi.1 (hi.2 hs2)
      have hres2 : (provisioning_state_machine c e m).result =
          some { m with peer_data_buffer := response_packed m, state := RX_STATE } := by
        rw [hres]; simp [hw]
      refine ⟨_, hres2, ?_, wellSized_step c e m _ hi.1 hres2,
        fun ht => by simp [RX_STATE, TX_STATE] at ht⟩
      have : (k + 1) % 2 = 1 := by omega
      simp [expected_state, this]

theorem trajectory_succeed (c : CommsCodes) (envs : List Env) :
    ∀ (k : Nat) (m : Machine), m.state = expected_state k → Ready m →
      (∀ e ∈ envs, AllSucceed c e) →
      trajectory c m envs =
        (List.range (envs.length + 1)).map (fun i => expected_state (k + i)) := by
  induction envs with
  | nil =>
    intro k m hs _ _
    simp [trajectory, hs, List.range_succ]
  | cons e es ih =>
    intro k m hs hi hall
    obtain ⟨m1, h1, hs1, hi1⟩ := succeed_step c e m k (hall e (List.mem_cons_self _ _)) hs hi
    have ih1 := ih (k + 1) m1 hs1 hi1 (fun x hx => hall x (List.mem_cons_of_mem _ hx))
    simp only [trajectory, h1, ih1, List.length_cons]
    rw [List.range_succ_eq_map (es.length + 1), List.map_cons, List.map_map]
    simp only [Nat.add_zero, hs, List.cons.injEq, true_and]
    apply List.map_congr_left
    intro i _
    simp only [Function.comp, Nat.succ_eq_add_one]
    congr 1
    omega

theorem step_never_targets_init (c : CommsCodes) (e : Env) (m m1 : Machine)
    (h : (provisioning_state_machine c e m).result = some m1) : m1.state ≠ INIT_STATE := by
  by_cases h0 : m.state = INIT_STATE
  · by_cases hh : e.handle = 0
    · rw [init_step_fault c e m h0 hh] at h
      cases h
    by_cases ho : e.open_ret = 0
    · rw [init_step_polled c e m h0 hh ho] at h
      cases hs : spin (fun s => s == 0) (open_issued c e m) e.events with
      | none => simp [hs] at h
      | some m3 =>
        simp only [hs, Option.map_some', Option.some.injEq] at h
        subst h
        simp [RX_STATE, INIT_STATE]
    · rw [init_step_issue_fail c e m h0 hh ho, Option.some.injEq] at h
      subst h
      simp [ERROR_STATE, INIT_STATE]
  by_cases h1 : m.state = RX_STATE
  · by_cases hrd : e.read_ret = 0
    · by_cases hx : c.OPTIGA_COMMS_SUCCESS = e.xcv_ret
      · rw [rx_step_polled c e m h1 hrd hx] at h
        cases hs : spin (fun s => c.OPTIGA_COMMS_SUCCESS == s) (rx_issued c e m)
          e.events with
        | none => simp [hs] at h
        | some m3 =>
          simp only [hs, Option.map_some', Option.some.injEq] at h
          subst h
          simp [TX_STATE, INIT_STATE]
      · rw [rx_step_issue_fail c e m h1 hrd hx, Option.some.injEq] at h
        subst h
        simp [ERROR_STATE, INIT_STATE]
    · rw [rx_step_read_fail c e m h1 hrd] at h
      simp only [Option.some.injEq] at h
      subst h
      simp [ERROR_STATE, INIT_STATE]
  by_cases h2 : m.state = TX_STATE
  · rw [tx_step_copy c e m h2] at h
    cases hmc : memcpy (length_packed m) 2 m.chip_reponse_buffer m.buffer_length with
    | none => simp [hmc] at h
    | some b2 =>
      simp only [hmc, Option.some.injEq] at h
      subst h
      by_cases hw : e.write_ret = 0 <;> simp [hw, ERROR_STATE, RX_STATE, INIT_STATE]
  by_cases h3 : m.state = ERROR_STATE
  · rw [error_step c e m h3] at h
    simp only [Option.some.injEq] at h
    subst h
    simp [RX_STATE, INIT_STATE]
  · simp only [provisioning_state_machine, h0, h1, h2, h3, if_false, Option.some.injEq] at h
    subst h
    exact h0

theorem init_not_in_trajectory_tail (c : CommsCodes) (envs : List Env) :
    ∀ m : Machine, INIT_STATE ∉ (trajectory c m envs).tail := by
  induction envs with
  | nil => intro m; simp [trajectory]
  | cons e es ih =>
    intro m
    simp only [trajectory, List.tail_cons]
    cases h : (provisioning_state_machine c e m).result with
    | none => simp
    | some m1 =>
      simp only
      have hne := step_never_targets_init c e m m1 h
      have ht := ih m1
      cases es with
      | nil =>
        simp only [trajectory, List.mem_singleton]
        exact fun hc => hne hc.symm
      | cons e2 es2 =>
        simp only [trajectory, List.tail_cons, List.mem_cons, not_or] at ht ⊢
        exact ⟨fun hc => hne hc.symm, ht⟩

theorem frame_split (f : List Byte) (h : 2 ≤ f.length) :
    f = f.getD 0 0 :: f.getD 1 0 :: f.drop 2 := by
  match f, h with
  | _ :: _ :: _, _ => simp

theorem long_frame_length : long_frame.length = PEER_DATA_BUFFER := by
  show (List.replicate 1996 (0 : Byte)).length + 1 + 1 = 1998
  rw [List.length_replicate]

theorem transceive_polled (c : CommsCodes) (env : Env) (m : Machine) (len : Nat)
    (hx : c.OPTIGA_COMMS_SUCCESS = env.xcv_ret) :
    (transceive_to_chip c env (rx_read env m) 2 len).result =
      (spin (fun s => c.OPTIGA_COMMS_SUCCESS == s) (rx_issued c env m) env.events).map
        (fun m3 => (0, m3)) := by
  simp only [transceive_to_chip, rx_read, rx_issued, hx]
  generalize spin _ _ env.events = r
  cases r <;> simp

theorem hello_trace (env : Env) (hd : env.read_data = hello_frame) (hr : env.read_ret = 0) :
    (provisioning_state_machine example_codes env rx_start).trace =
      [Action.read 1998, Action.transceive 1 2 5 [72, 69, 76, 76, 79] 1998] := by
  have hl : env.read_data.length = rx_start.peer_data_buffer.length := by
    rw [hd]
    exact hello_frame_length.trans (wellSized_init example_codes RX_STATE 1).1.symm
  have h := rx_step_trace example_codes env rx_start rfl hr
  rw [rx_transceive, actual_apdu_length_eq, store_full _ _ hl, hd] at h
  exact h

/-! ## The claims -/

/-- C1: after a successful Receiving step has left a chip response of length
`n` with `n + 2 ≤ PEER_DATA_BUFFER` (the length the transceive reported, its
bytes stored in the chip response buffer), the following Transmitting step
writes to the peer channel one frame of exactly `PEER_DATA_BUFFER` bytes whose
byte 0 is `n / 256`, whose byte 1 is `n % 256`, and whose bytes `2 .. 2+n-1` are
the first `n` bytes of the chip response buffer. -/
theorem transmitting_relays_chip_response (c : CommsCodes) (env1 env2 : Env)
    (m m1 : Machine) (n : Nat) (hm : WellSized m) (hs : m.state = RX_STATE)
    (h1 : (provisioning_state_machine c env1 m).result = some m1)
    (ht : m1.state = TX_STATE) (hn : m1.buffer_length = n)
    (hcap : n + 2 ≤ PEER_DATA_BUFFER) :
    n = env1.rx_len % 65536 ∧
    m1.chip_reponse_buffer = store m.chip_reponse_buffer env1.rx_data ∧
    ∃ frame b0 b1 rest m2,
      provisioning_state_machine c env2 m1 =
        ⟨[Action.memcpy 2 n, Action.write frame], some m2⟩ ∧
      frame.length = PEER_DATA_BUFFER ∧ frame = b0 :: b1 :: rest ∧
      b0.val = n / 256 ∧ b1.val = n % 256 ∧
      rest.take n = m1.chip_reponse_buffer.take n := by
  have hw1 := wellSized_step c env1 m m1 hm h1
  obtain ⟨_, _, _, hc, hb, _⟩ := rx_step_success_inv c env1 m m1 hs h1 ht
  subst hn
  obtain ⟨b0, b1, rest, hf, h0, hb1, hr, _⟩ := response_frame m1 hw1 hcap
  refine ⟨hb, hc, _, b0, b1, rest, _, tx_step c env2 m1 ht hw1 hcap, ?_, hf, h0, hb1, hr⟩
  rw [List.length_take, response_packed_length m1 hw1 hcap, Nat.min_self]

/-- C1, at an instance: `rx_start` receives `env_hello`, whose chip response has
length 5. -/
theorem transmitting_relays_chip_response_witness :
    WellSized rx_start ∧ rx_start.state = RX_STATE ∧
    (provisioning_state_machine example_codes env_hello rx_start).result = some after_hello ∧
    after_hello.state = TX_STATE ∧ after_hello.buffer_length = 5 ∧
    5 + 2 ≤ PEER_DATA_BUFFER ∧
    ∃ frame b0 b1 rest m2,
      provisioning_state_machine example_codes env_hello after_hello =
        ⟨[Action.memcpy 2 5, Action.write frame], some m2⟩ ∧
      frame.length = PEER_DATA_BUFFER ∧ frame = b0 :: b1 :: rest ∧
      b0.val = 5 / 256 ∧ b1.val = 5 % 256 ∧
      rest.take 5 = after_hello.chip_reponse_buffer.take 5 :=
  ⟨wellSized_init _ _ _, rfl, rfl, rfl, rfl, by decide,
    (transmitting_relays_chip_response example_codes env_hello env_hello rx_start
      after_hello 5 (wellSized_init _ _ _) rfl rfl rfl rfl (by decide)).2.2⟩

/-- C2: whatever the two buffers hold and whatever `pal_logger_write` returns,
one call in the Error state writes to the peer channel one frame of
`PEER_DATA_BUFFER` bytes that starts `00 02 FF FF`, and leaves the state
Receiving. -/
theorem error_state_emits_sentinel (c : CommsCodes) (env : Env) (m : Machine)
    (hm : WellSized m) (hs : m.state = ERROR_STATE) :
    ∃ frame m1,
      provisioning_state_machine c env m = ⟨[Action.write frame], some m1⟩ ∧
      frame.length = PEER_DATA_BUFFER ∧ frame.take 4 = [0x00, 0x02, 0xFF, 0xFF] ∧
      m1.state = RX_STATE ∧ m1.chip_reponse_buffer = m.chip_reponse_buffer := by
  obtain ⟨hl, ht⟩ := sentinel_frame m.peer_data_buffer hm.1
  exact ⟨_, _, error_step c env m hs, hl, ht, rfl, rfl⟩

/-- C2, at an instance: the machine `error_start`, with a write that fails. -/
theorem error_state_emits_sentinel_witness :
    WellSized error_start ∧ error_start.state = ERROR_STATE ∧
    ∃ frame m1,
      provisioning_state_machine example_codes { env_hello with write_ret := 1 } error_start =
        ⟨[Action.write frame], some m1⟩ ∧
      frame.length = PEER_DATA_BUFFER ∧ frame.take 4 = [0x00, 0x02, 0xFF, 0xFF] ∧
      m1.state = RX_STATE ∧ m1.chip_reponse_buffer = error_start.chip_reponse_buffer :=
  ⟨wellSized_init _ _ _, rfl,
    error_state_emits_sentinel example_codes { env_hello with write_ret := 1 } error_start
      (wellSized_init _ _ _) rfl⟩

/-- C3: each of the four failure causes ends the call in the Error state (and
in no other): (a) in Init, `optiga_comms_open`, called on the handle that
`optiga_comms_create` returned, is not issued; (b) in Receiving, the read
fails, and then no transceive is issued; (c) in Receiving, the transceive is
not issued; (d) in Transmitting, the write, reached after a copy that stayed
inside the peer frame buffer, fails. The next call, whatever its collaborators
answer, writes one frame of `PEER_DATA_BUFFER` bytes starting `00 02 FF FF` and
ends in Receiving. -/
theorem failure_causes_reach_error (c : CommsCodes) (env : Env) (m : Machine)
    (hm : WellSized m) (hf : FailureCause c env m) :
    ∃ m1, (provisioning_state_machine c env m).result = some m1 ∧
      m1.state = ERROR_STATE ∧
      (m.state = RX_STATE → env.read_ret ≠ 0 →
        (provisioning_state_machine c env m).trace = [Action.read PEER_DATA_BUFFER]) ∧
      ∀ env2 : Env, ∃ frame m2,
        provisioning_state_machine c env2 m1 = ⟨[Action.write frame], some m2⟩ ∧
        frame.length = PEER_DATA_BUFFER ∧ frame.take 4 = [0x00, 0x02, 0xFF, 0xFF] ∧
        m2.state = RX_STATE := by
  obtain ⟨m1, h1, he⟩ := failure_step c env m hm hf
  have hw1 := wellSized_step c env m m1 hm h1
  refine ⟨m1, h1, he, ?_, ?_⟩
  · intro hs hr
    rw [rx_step_read_fail c env m hs hr]
  · intro env2
    obtain ⟨hl, ht⟩ := sentinel_frame m1.peer_data_buffer hw1.1
    exact ⟨_, _, error_step c env2 m1 he, hl, ht, rfl⟩

/-- C3, at one instance of each cause. -/
theorem failure_causes_reach_error_witness :
    (FailureCause example_codes { env_hello with open_ret := 1 } (init example_codes) ∧
      ∃ m1, (provisioning_state_machine example_codes { env_hello with open_ret := 1 }
          (init example_codes)).result = some m1 ∧ m1.state = ERROR_STATE) ∧
    (FailureCause example_codes { env_hello with read_ret := 1 } rx_start ∧
      ∃ m1, (provisioning_state_machine example_codes { env_hello with read_ret := 1 }
          rx_start).result = some m1 ∧ m1.state = ERROR_STATE) ∧
    (FailureCause example_codes { env_hello with xcv_ret := 0x0102 } rx_start ∧
      ∃ m1, (provisioning_state_machine example_codes { env_hello with xcv_ret := 0x0102 }
          rx_start).result = some m1 ∧ m1.state = ERROR_STATE) ∧
    (FailureCause example_codes { env_hello with write_ret := 1 } after_hello ∧
      ∃ m1, (provisioning_state_machine example_codes { env_hello with write_ret := 1 }
          after_hello).result = some m1 ∧ m1.state = ERROR_STATE) :=
  have ha : FailureCause example_codes { env_hello with open_ret := 1 } (init example_codes) :=
    Or.inl ⟨rfl, by decide, by decide⟩
  have hb : FailureCause example_codes { env_hello with read_ret := 1 } rx_start :=
    Or.inr (Or.inl ⟨rfl, by decide⟩)
  have hc : FailureCause example_codes { env_hello with xcv_ret := 0x0102 } rx_start :=
    Or.inr (Or.inr (Or.inl ⟨rfl, rfl, by decide⟩))
  have hd : FailureCause example_codes { env_hello with write_ret := 1 } after_hello :=
    Or.inr (Or.inr (Or.inr ⟨rfl, by decide, by decide⟩))
  have hw : WellSized after_hello :=
    wellSized_step example_codes env_hello rx_start after_hello (wellSized_init _ _ _) rfl
  ⟨⟨ha, let ⟨m1, h1, h2, _⟩ := failure_causes_reach_error _ _ _ (wellSized_init _ _ _) ha
      ⟨m1, h1, h2⟩⟩,
    ⟨hb, let ⟨m1, h1, h2, _⟩ := failure_causes_reach_error _ _ _ (wellSized_init _ _ _) hb
      ⟨m1, h1, h2⟩⟩,
    ⟨hc, let ⟨m1, h1, h2, _⟩ := failure_causes_reach_error _ _ _ (wellSized_init _ _ _) hc
      ⟨m1, h1, h2⟩⟩,
    ⟨hd, let ⟨m1, h1, h2, _⟩ := failure_causes_reach_error _ _ _ hw hd
      ⟨m1, h1, h2⟩⟩⟩

/-- C4: from the initial machine, (1) when every collaborator call of every
relay call succeeds (a handle is created, the open and the transceive are
issued and complete, the reads and writes succeed, every response fits a peer
frame), the states seen at the successive calls are Init, Receiving,
Transmitting, Receiving, Transmitting, ... for any number of calls; (2)
whatever the collaborators answer, Init is not among the states seen after the
first call; (3) no call that returns leaves the state Init. -/
theorem state_sequence (c : CommsCodes) (envs : List Env) :
    ((∀ e ∈ envs, AllSucceed c e) →
      trajectory c (init c) envs = (List.range (envs.length + 1)).map expected_state) ∧
    INIT_STATE ∉ (trajectory c (init c) envs).tail ∧
    (∀ (e : Env) (m m1 : Machine),
      (provisioning_state_machine c e m).result = some m1 → m1.state ≠ INIT_STATE) := by
  refine ⟨fun hall => ?_, init_not_in_trajectory_tail c envs (init c),
    fun e m m1 h => step_never_targets_init c e m m1 h⟩
  have hi : Ready (init c) := ⟨wellSized_init c INIT_STATE 0, fun h => by
    simp [init, INIT_STATE, TX_STATE] at h⟩
  have := trajectory_succeed c envs 0 (init c) rfl hi hall
  simpa using this

/-- C4, at an instance: two full cycles after the opening call. -/
theorem state_sequence_witness :
    (∀ e ∈ [env_hello, env_hello, env_hello, env_hello, env_hello],
      AllSucceed example_codes e) ∧
    trajectory example_codes (init example_codes)
        [env_hello, env_hello, env_hello, env_hello, env_hello] =
      [INIT_STATE, RX_STATE, TX_STATE, RX_STATE, TX_STATE, RX_STATE] :=
  have hall : ∀ e ∈ [env_hello, env_hello, env_hello, env_hello, env_hello],
      AllSucceed example_codes e := by
    intro e he
    simp only [List.mem_cons, List.mem_singleton, List.not_mem_nil, or_false, or_self] at he
    subst he
    exact ⟨by decide, rfl, ⟨0, List.mem_cons_self _ _, rfl⟩, rfl, rfl,
      ⟨0, List.mem_cons_self _ _, rfl⟩, by decide, rfl⟩
  ⟨hall, (state_sequence example_codes _).1 hall⟩

/-- C5, the code at the failing input: the frame read declares 1997 bytes, one
more than `PEER_DATA_BUFFER - 2`. The call issues the transceive with outbound
length 1997 from offset 2, of which only 1996 bytes lie in the peer frame
buffer, and ends in Transmitting, not in Error. -/
theorem oversized_length_is_transceived :
    (provisioning_state_machine example_codes env_long rx_start).trace =
      [Action.read 1998, Action.transceive 1 2 1997 (List.replicate 1996 0) 1998] ∧
    (∃ m1, (provisioning_state_machine example_codes env_long rx_start).result = some m1 ∧
      m1.state = TX_STATE) ∧
    PEER_DATA_BUFFER - 2 < 1997 ∧ PEER_DATA_BUFFER < 2 + 1997 := by
  have hl : env_long.read_data.length = rx_start.peer_data_buffer.length :=
    long_frame_length.trans (wellSized_init example_codes RX_STATE 1).1.symm
  have ht : ((long_frame.drop 2).take 1997) = List.replicate 1996 0 :=
    List.take_of_length_le (by
      show (List.replicate 1996 (0 : Byte)).length ≤ 1997
      rw [List.length_replicate]; decide)
  refine ⟨?_, ?_, by decide, by decide⟩
  · have h := rx_step_trace example_codes env_long rx_start rfl rfl
    rw [rx_transceive, actual_apdu_length_eq, store_full _ _ hl] at h
    rw [h]
    exact congrArg (fun d => [Action.read 1998, Action.transceive 1 2 1997 d 1998]) ht
  · obtain ⟨m1, h1, hs, _⟩ := rx_step_returns example_codes env_long rx_start rfl rfl rfl
      (Or.inr ⟨0, List.mem_cons_self _ _, rfl⟩)
    exact ⟨m1, h1, hs⟩

/-- C6: a peer frame `f` of `PEER_DATA_BUFFER` bytes with declared length `L`,
`L + 2 ≤ PEER_DATA_BUFFER`, is read; the transceive is issued and completes;
the chip echoes the outbound APDU of the transceive the call issues (its
response bytes are the outbound bytes, its `rx_len` the outbound length).
Then the Receiving call issues the transceive of the `L` bytes `f[2 .. 2+L-1]`
and ends in Transmitting, and the next call writes to the peer channel exactly
the frame `f`, padding included. -/
theorem echo_round_trip (c : CommsCodes) (env1 env2 : Env) (m : Machine) (f : List Byte)
    (L : Nat) (hm : WellSized m) (hs : m.state = RX_STATE)
    (hf : f.length = PEER_DATA_BUFFER)
    (hL : L = 256 * (f.getD 0 0).val + (f.getD 1 0).val) (hcap : L + 2 ≤ PEER_DATA_BUFFER)
    (hr : env1.read_ret = 0) (hdata : env1.read_data = f)
    (hx : c.OPTIGA_COMMS_SUCCESS = env1.xcv_ret)
    (hev : ∃ ev ∈ env1.events, c.OPTIGA_COMMS_SUCCESS = ev % 256)
    (hecho : ∀ (st off len : Nat) (data : List Byte) (cap : Nat),
      Action.transceive st off len data cap ∈ (provisioning_state_machine c env1 m).trace →
      env1.rx_data = data ∧ env1.rx_len = len) :
    (provisioning_state_machine c env1 m).trace =
      [Action.read PEER_DATA_BUFFER,
        Action.transceive (c.OPTIGA_COMMS_BUSY % 256) 2 L ((f.drop 2).take L)
          PEER_DATA_BUFFER] ∧
    ∃ m1, (provisioning_state_machine c env1 m).result = some m1 ∧ m1.state = TX_STATE ∧
      ∃ m2, provisioning_state_machine c env2 m1 =
        ⟨[Action.memcpy 2 L, Action.write f], some m2⟩ := by
  have hsf : store m.peer_data_buffer env1.read_data = f := by
    rw [hdata, store_full _ _ (by rw [hf, hm.1])]
  have htrace : (provisioning_state_machine c env1 m).trace =
      [Action.read PEER_DATA_BUFFER,
        Action.transceive (c.OPTIGA_COMMS_BUSY % 256) 2 L ((f.drop 2).take L)
          PEER_DATA_BUFFER] := by
    rw [rx_step_trace c env1 m hs hr, rx_transceive, actual_apdu_length_eq, hsf, ← hL]
  have hmem : Action.transceive (c.OPTIGA_COMMS_BUSY % 256) 2 L ((f.drop 2).take L)
      PEER_DATA_BUFFER ∈ (provisioning_state_machine c env1 m).trace := by
    rw [htrace]
    exact List.mem_cons_of_mem _ (List.mem_singleton.mpr rfl)
  obtain ⟨hecho, hlen⟩ := hecho _ _ _ _ _ hmem
  refine ⟨htrace, ?_⟩
  obtain ⟨m1, h1, ht, hp, hc, hb⟩ := rx_step_returns c env1 m hs hr hx (Or.inr hev)
  have hw1 := wellSized_step c env1 m m1 hm h1
  have hcapn : PEER_DATA_BUFFER = 1998 := rfl
  have hbl : m1.buffer_length = L := by rw [hb, hlen]; omega
  have h2 : 2 ≤ f.length := by omega
  have hpf : m1.peer_data_buffer = f := by rw [hp, hsf]
  have hel : ((f.drop 2).take L).length = L := by
    rw [List.length_take, List.length_drop]; omega
  have hfit : m1.buffer_length + 2 ≤ PEER_DATA_BUFFER := by rw [hbl]; exact hcap
  obtain ⟨b0, b1, rest, hfr, h0, hb1, hrt, hrd⟩ := response_frame m1 hw1 hfit
  rw [hbl] at h0 hb1 hrt hrd
  have hct : m1.chip_reponse_buffer.take L = (f.drop 2).take L := by
    rw [hc, hecho, store_take _ _ L (by rw [hel]) (by rw [hel, hm.2]; omega),
      List.take_of_length_le (by rw [hel])]
  have hrest : rest = f.drop 2 := by
    rw [← List.take_append_drop L rest, hrt, hrd, hct, hpf, ← List.drop_drop,
      List.take_append_drop]
  have hb0 : b0 = f.getD 0 0 := by
    apply Fin.ext
    have := (f.getD 1 0).isLt
    omega
  have hb1f : b1 = f.getD 1 0 := by
    apply Fin.ext
    have := (f.getD 1 0).isLt
    omega
  have htr : [Action.memcpy 2 m1.buffer_length,
      Action.write ((response_packed m1).take PEER_DATA_BUFFER)] =
      [Action.memcpy 2 L, Action.write f] := by
    rw [hfr, hbl, hrest, hb0, hb1f, ← frame_split f h2]
  exact ⟨m1, h1, ht, _, by rw [tx_step c env2 m1 ht hw1 hfit, htr]⟩

/-- C6, at the instance of the claim: `00 05 'H' 'E' 'L' 'L' 'O'` and padding;
the chip answers `'H' 'E' 'L' 'L' 'O'`, the outbound bytes of the transceive
issued. -/
theorem echo_round_trip_witness :
    WellSized rx_start ∧ rx_start.state = RX_STATE ∧ hello_frame.length = PEER_DATA_BUFFER ∧
    5 = 256 * (hello_frame.getD 0 0).val + (hello_frame.getD 1 0).val ∧
    5 + 2 ≤ PEER_DATA_BUFFER ∧ env_hello.read_ret = 0 ∧ env_hello.read_data = hello_frame ∧
    example_codes.OPTIGA_COMMS_SUCCESS = env_hello.xcv_ret ∧
    (∃ ev ∈ env_hello.events, example_codes.OPTIGA_COMMS_SUCCESS = ev % 256) ∧
    (∀ (st off len : Nat) (data : List Byte) (cap : Nat),
      Action.transceive st off len data cap ∈
        (provisioning_state_machine example_codes env_hello rx_start).trace →
      env_hello.rx_data = data ∧ env_hello.rx_len = len) ∧
    (provisioning_state_machine example_codes env_hello rx_start).trace =
      [Action.read PEER_DATA_BUFFER,
        Action.transceive (example_codes.OPTIGA_COMMS_BUSY % 256) 2 5
          ((hello_frame.drop 2).take 5) PEER_DATA_BUFFER] ∧
    ∃ m1, (provisioning_state_machine example_codes env_hello rx_start).result = some m1 ∧
      m1.state = TX_STATE ∧
      ∃ m2, provisioning_state_machine example_codes env_hello m1 =
        ⟨[Action.memcpy 2 5, Action.write hello_frame], some m2⟩ :=
  have hl : hello_frame.length = PEER_DATA_BUFFER := hello_frame_length
  have hev : ∃ ev ∈ env_hello.events, example_codes.OPTIGA_COMMS_SUCCESS = ev % 256 :=
    ⟨0, List.mem_cons_self _ _, rfl⟩
  have hecho : ∀ (st off len : Nat) (data : List Byte) (cap : Nat),
      Action.transceive st off len data cap ∈
        (provisioning_state_machine example_codes env_hello rx_start).trace →
      env_hello.rx_data = data ∧ env_hello.rx_len = len := by
    intro st off len data cap hmem
    rw [hello_trace env_hello rfl rfl] at hmem
    rcases List.mem_cons.mp hmem with h | h
    · cases h
    · cases List.mem_singleton.mp h
      exact ⟨rfl, rfl⟩
  have h := echo_round_trip example_codes env_hello env_hello rx_start hello_frame 5
    (wellSized_init _ _ _) rfl hl rfl (by decide) rfl rfl rfl hev hecho
  ⟨wellSized_init _ _ _, rfl, hl, rfl, by decide, rfl, rfl, rfl, hev, hecho, h.1, h.2⟩

/-- C7: in the Receiving state, after a successful read, the call issues the
read and then exactly one transceive: its outbound pointer is
`peer_data_buffer + 2`, its outbound length is `256 * b0 + b1` for the first two
bytes `b0`, `b1` of the peer frame buffer as the read left it, its outbound
data are the bytes of that buffer from offset 2 on, and its inbound length
argument is `PEER_DATA_BUFFER` (1998) whatever `buffer_length` was before. When
the read filled the whole buffer, the buffer is the frame read. -/
theorem receiving_issues_one_transceive (c : CommsCodes) (env : Env) (m : Machine)
    (hs : m.state = RX_STATE) (hr : env.read_ret = 0) :
    (provisioning_state_machine c env m).trace =
      [Action.read PEER_DATA_BUFFER,
        Action.transceive (c.OPTIGA_COMMS_BUSY % 256) 2
          (256 * ((store m.peer_data_buffer env.read_data).getD 0 0).val +
            ((store m.peer_data_buffer env.read_data).getD 1 0).val)
          (((store m.peer_data_buffer env.read_data).drop 2).take
            (256 * ((store m.peer_data_buffer env.read_data).getD 0 0).val +
              ((store m.peer_data_buffer env.read_data).getD 1 0).val))
          PEER_DATA_BUFFER] ∧
    PEER_DATA_BUFFER = 1998 ∧
    (env.read_data.length = m.peer_data_buffer.length →
      store m.peer_data_buffer env.read_data = env.read_data) := by
  refine ⟨?_, rfl, store_full _ _⟩
  rw [rx_step_trace c env m hs hr, rx_transceive, actual_apdu_length_eq]

/-- C7, at an instance: `rx_start`, which holds `buffer_length = 0`, reads
`hello_frame`. -/
theorem receiving_issues_one_transceive_witness :
    rx_start.state = RX_STATE ∧ env_hello.read_ret = 0 ∧ rx_start.buffer_length = 0 ∧
    (provisioning_state_machine example_codes env_hello rx_start).trace =
      [Action.read 1998, Action.transceive 1 2 5 [72, 69, 76, 76, 79] 1998] :=
  have hl : env_hello.read_data.length = rx_start.peer_data_buffer.length :=
    hello_frame_length.trans (wellSized_init example_codes RX_STATE 1).1.symm
  have h := (receiving_issues_one_transceive example_codes env_hello rx_start rfl rfl).1
  ⟨rfl, rfl, rfl, by rw [store_full _ _ hl] at h; exact h⟩

/-- C8, refuted as stated: a handle is created, the open is issued successfully
and the callback delivers the status `0x0102`, which is neither Pending nor
Success; the call polls on and never returns, so the relay does not move to
Receiving. -/
theorem open_error_status_never_returns :
    env_error_status.handle ≠ 0 ∧ env_error_status.open_ret = 0 ∧
    (∀ ev ∈ env_error_status.events,
      ev ≠ example_codes.OPTIGA_COMMS_BUSY ∧ ev ≠ example_codes.OPTIGA_COMMS_SUCCESS) ∧
    (comms_open example_codes env_error_status (init example_codes)).result = none ∧
    provisioning_state_machine example_codes env_error_status (init example_codes) =
      ⟨[Action.comms_open 1], none⟩ := by
  have hh : env_error_status.handle ≠ 0 := by decide
  have hn : spin (fun s => s == 0) (open_issued example_codes env_error_status
      (init example_codes)) env_error_status.events = none := by
    rw [spin_eq_none_iff]
    exact ⟨rfl, fun e he => by
      have : e = 0x0102 := List.mem_singleton.mp he
      subst this
      rfl⟩
  have hres : (provisioning_state_machine example_codes env_error_status
      (init example_codes)).result = none := by
    rw [init_step_polled _ _ _ rfl hh rfl, hn]
    rfl
  have htr := init_step_trace example_codes env_error_status (init example_codes) rfl hh
  refine ⟨hh, rfl, ?_, ?_, ?_⟩
  · intro ev he
    have : ev = 0x0102 := List.mem_singleton.mp he
    subst this
    exact ⟨by decide, by decide⟩
  · rw [comms_open_polled _ _ _ hh rfl, hn]
    rfl
  · cases hrun : provisioning_state_machine example_codes env_error_status
      (init example_codes) with
    | mk tr res =>
      rw [hrun] at hres htr
      simp only at hres htr
      rw [hres, htr]
      rfl

/-- C8, amended: in Init, when a handle is created and `optiga_comms_open` is
issued successfully, the completion status is Pending (`OPTIGA_COMMS_BUSY`, as
stored in the `uint8_t`) at the moment of the issue; the call returns if and
only if the stored status is 0 at some poll, that is, if the callback delivers
a status whose stored byte is 0 (or Pending itself is stored as 0); a
delivered status with a non-zero stored byte does not end the wait. When the
call returns, `comms_open` has returned 0, the status is 0 and the state is
Receiving. -/
theorem open_waits_for_zero_status (c : CommsCodes) (env : Env) (m : Machine)
    (hs : m.state = INIT_STATE) (hh : env.handle ≠ 0) (ho : env.open_ret = 0) :
    (provisioning_state_machine c env m).trace =
      [Action.comms_open (c.OPTIGA_COMMS_BUSY % 256)] ∧
    ((∃ m1, (provisioning_state_machine c env m).result = some m1) ↔
      (c.OPTIGA_COMMS_BUSY % 256 = 0 ∨ ∃ ev ∈ env.events, ev % 256 = 0)) ∧
    (∀ m1, (provisioning_state_machine c env m).result = some m1 →
      m1.state = RX_STATE ∧ m1.optiga_comms_status = 0 ∧
      ∃ m3, (comms_open c env m).result = some (0, m3)) := by
  refine ⟨init_step_trace c env m hs hh, ?_, ?_⟩
  · rw [init_step_polled c env m hs hh ho]
    constructor
    · rintro ⟨m1, h1⟩
      by_contra hc
      have hn : spin (fun s => s == 0) (open_issued c env m) env.events = none := by
        rw [spin_eq_none_iff]
        simp only [not_or, not_exists, not_and] at hc
        exact ⟨by simpa [open_issued] using hc.1, fun e he => by simpa using hc.2 e he⟩
      rw [hn] at h1
      cases h1
    · intro h
      have hd : (fun s => s == 0) (open_issued c env m).optiga_comms_status = true ∨
          ∃ e ∈ env.events, (fun s => s == 0) (e % 256) = true := by
        rcases h with h | ⟨ev, he, h⟩
        · exact Or.inl (by simp [open_issued, h])
        · exact Or.inr ⟨ev, he, by simp [h]⟩
      obtain ⟨m3, h3⟩ := spin_some_of_event (fun s => s == 0) env.events
        (open_issued c env m) hd
      exact ⟨_, by rw [h3]; rfl⟩
  · intro m1 h1
    rw [init_step_polled c env m hs hh ho] at h1
    cases h3 : spin (fun s => s == 0) (open_issued c env m) env.events with
    | none => simp [h3] at h1
    | some m3 =>
      obtain ⟨_, hd⟩ := spin_frame _ _ _ _ h3
      simp only [h3, Option.map_some', Option.some.injEq] at h1
      subst h1
      exact ⟨rfl, by simpa using hd, m3, by rw [comms_open_polled c env m hh ho, h3]; rfl⟩

/-- C8 amended, at an instance: the callback delivers `0x0102` and then 0. -/
theorem open_waits_for_zero_status_witness :
    (init example_codes).state = INIT_STATE ∧
    ({ env_hello with events := [0x0102, 0] } : Env).handle ≠ 0 ∧
    ({ env_hello with events := [0x0102, 0] } : Env).open_ret = 0 ∧
    ∃ m1, (provisioning_state_machine example_codes { env_hello with events := [0x0102, 0] }
        (init example_codes)).result = some m1 ∧
      m1.state = RX_STATE ∧ m1.optiga_comms_status = 0 :=
  have h := open_waits_for_zero_status example_codes { env_hello with events := [0x0102, 0] }
    (init example_codes) rfl (by decide) rfl
  have ⟨m1, h1⟩ := h.2.1.2 (Or.inr ⟨0, by simp, rfl⟩)
  ⟨rfl, by decide, rfl, m1, h1, (h.2.2 m1 h1).1, (h.2.2 m1 h1).2.1⟩

/-- C9, refuted as stated: in Receiving the transceive is issued successfully and
the callback reports the non-Success status `0x0102`, stored as `0x02`;
`transceive_to_chip` does not return and the call does not end, in
Transmitting or in any other state. -/
theorem transceive_error_status_never_returns :
    rx_start.state = RX_STATE ∧ env_error_status.read_ret = 0 ∧
    env_error_status.xcv_ret = example_codes.OPTIGA_COMMS_SUCCESS ∧
    (∀ ev ∈ env_error_status.events, ev ≠ example_codes.OPTIGA_COMMS_SUCCESS) ∧
    (transceive_to_chip example_codes env_error_status (rx_read env_error_status rx_start) 2
      5).result = none ∧
    provisioning_state_machine example_codes env_error_status rx_start =
      ⟨[Action.read 1998, Action.transceive 1 2 5 [72, 69, 76, 76, 79] 1998], none⟩ := by
  have hn : spin (fun s => example_codes.OPTIGA_COMMS_SUCCESS == s)
      (rx_issued example_codes env_error_status rx_start) env_error_status.events = none := by
    rw [spin_eq_none_iff]
    exact ⟨rfl, fun e he => by
      have : e = 0x0102 := List.mem_singleton.mp he
      subst this
      rfl⟩
  have hres : (provisioning_state_machine example_codes env_error_status rx_start).result =
      none := by
    rw [rx_step_polled _ _ _ rfl rfl rfl, hn]
    rfl
  have htr := hello_trace env_error_status rfl rfl
  refine ⟨rfl, rfl, rfl, ?_, ?_, ?_⟩
  · intro ev he
    have : ev = 0x0102 := List.mem_singleton.mp he
    subst this
    decide
  · rw [transceive_polled _ _ _ _ rfl, hn]
    rfl
  · cases hrun : provisioning_state_machine example_codes env_error_status rx_start with
    | mk tr res =>
      rw [hrun] at hres htr
      simp only at hres htr
      rw [hres, htr]

/-- C9, amended: in Receiving, after a read and a successfully issued
transceive, the call returns if and only if the completion status, as stored
in the `uint8_t optiga_comms_status`, equals `OPTIGA_COMMS_SUCCESS` at some
poll, that is, if the callback delivers a status whose stored byte (its low 8
bits) is Success (or Pending itself is stored as Success); a delivered status
whose stored byte is anything else does not end the wait. A call that returns
has seen `transceive_to_chip` return 0, has the stored status Success and the
state Transmitting; it never ends in Error. -/
theorem transceive_waits_for_success (c : CommsCodes) (env : Env) (m : Machine)
    (hs : m.state = RX_STATE) (hr : env.read_ret = 0)
    (hx : c.OPTIGA_COMMS_SUCCESS = env.xcv_ret) :
    ((∃ m1, (provisioning_state_machine c env m).result = some m1) ↔
      (c.OPTIGA_COMMS_SUCCESS = c.OPTIGA_COMMS_BUSY % 256 ∨
        ∃ ev ∈ env.events, c.OPTIGA_COMMS_SUCCESS = ev % 256)) ∧
    (∀ m1, (provisioning_state_machine c env m).result = some m1 →
      m1.state = TX_STATE ∧ m1.state ≠ ERROR_STATE ∧
      m1.optiga_comms_status = c.OPTIGA_COMMS_SUCCESS ∧
      ∃ m3, (transceive_to_chip c env (rx_read env m) 2
        (actual_apdu_length (store m.peer_data_buffer env.read_data))).result =
          some (0, m3)) := by
  constructor
  · constructor
    · rintro ⟨m1, h1⟩
      rw [rx_step_polled c env m hs hr hx] at h1
      by_contra hc
      have hn : spin (fun s => c.OPTIGA_COMMS_SUCCESS == s) (rx_issued c env m) env.events
          = none := by
        rw [spin_eq_none_iff]
        simp only [not_or, not_exists, not_and] at hc
        exact ⟨by simpa [rx_issued] using hc.1, fun e he => by simpa using hc.2 e he⟩
      rw [hn] at h1
      cases h1
    · intro h
      obtain ⟨m1, h1, _⟩ := rx_step_returns c env m hs hr hx h
      exact ⟨m1, h1⟩
  · intro m1 h1
    rw [rx_step_polled c env m hs hr hx] at h1
    cases h3 : spin (fun s => c.OPTIGA_COMMS_SUCCESS == s) (rx_issued c env m)
      env.events with
    | none => simp [h3] at h1
    | some m3 =>
      obtain ⟨_, hd⟩ := spin_frame _ _ _ _ h3
      simp only [h3, Option.map_some', Option.some.injEq] at h1
      subst h1
      have hd2 : c.OPTIGA_COMMS_SUCCESS = m3.optiga_comms_status := by simpa using hd
      exact ⟨rfl, by simp [TX_STATE, ERROR_STATE], hd2.symm, m3,
        by rw [transceive_polled c env m _ hx, h3]; rfl⟩

/-- C9 amended, at two instances: the callback reports `0x0102` and then
Success; and the callback reports the one status `0x0100`, which is not
Success but is stored as `0x00`, Success. -/
theorem transceive_waits_for_success_witness :
    rx_start.state = RX_STATE ∧
    ({ env_hello with events := [0x0102, 0] } : Env).read_ret = 0 ∧
    example_codes.OPTIGA_COMMS_SUCCESS =
      ({ env_hello with events := [0x0102, 0] } : Env).xcv_ret ∧
    (∃ m1, (provisioning_state_machine example_codes { env_hello with events := [0x0102, 0] }
        rx_start).result = some m1 ∧ m1.state = TX_STATE) ∧
    (0x0100 ≠ example_codes.OPTIGA_COMMS_SUCCESS ∧
      ∃ m1, (provisioning_state_machine example_codes { env_hello with events := [0x0100] }
        rx_start).result = some m1 ∧ m1.state = TX_STATE) :=
  have h := transceive_waits_for_success example_codes
    { env_hello with events := [0x0102, 0] } rx_start rfl rfl rfl
  have ⟨m1, h1⟩ := h.1.2 (Or.inr ⟨0, by simp, rfl⟩)
  have g := transceive_waits_for_success example_codes
    { env_hello with events := [0x0100] } rx_start rfl rfl rfl
  have ⟨n1, g1⟩ := g.1.2 (Or.inr ⟨0x0100, by simp, rfl⟩)
  ⟨rfl, rfl, rfl, ⟨m1, h1, (h.2 m1 h1).1⟩, by decide, n1, g1, (g.2 n1 g1).1⟩

/-- C10, the code at the failing input: the transceive is offered the inbound
capacity 1998 and the chip reports `rx_len = 1998`. The Receiving call ends in
Transmitting with `buffer_length = 1998`. The Transmitting call, whatever its
collaborators answer, stores the length bytes `07 CE` (1998, more than
`PEER_DATA_BUFFER - 2`) and calls `memcpy` with 1998 bytes to offset 2 of the
1998-byte peer frame buffer: the copy ends 2 bytes past the buffer, a fault. -/
theorem full_response_overruns_frame :
    (provisioning_state_machine example_codes env_full rx_start).trace =
      [Action.read 1998, Action.transceive 1 2 5 [72, 69, 76, 76, 79] 1998] ∧
    ∃ m1, (provisioning_state_machine example_codes env_full rx_start).result = some m1 ∧
      m1.state = TX_STATE ∧ m1.buffer_length = 1998 ∧
      (∃ b0 b1 rest, length_packed m1 = b0 :: b1 :: rest ∧ 256 * b0.val + b1.val = 1998) ∧
      (∀ env2 : Env, provisioning_state_machine example_codes env2 m1 =
        ⟨[Action.memcpy 2 1998, Action.fault], none⟩) ∧
      PEER_DATA_BUFFER - 2 < 1998 ∧ PEER_DATA_BUFFER < 2 + 1998 := by
  refine ⟨hello_trace env_full rfl rfl, ?_⟩
  obtain ⟨m1, h1, hs, _, _, hb⟩ := rx_step_returns example_codes env_full rx_start rfl rfl
    rfl (Or.inr ⟨0, List.mem_cons_self _ _, rfl⟩)
  have hw1 := wellSized_step example_codes env_full rx_start m1 (wellSized_init _ _ _) h1
  have hb2 : m1.buffer_length = 1998 := hb
  have h2 : 2 ≤ m1.peer_data_buffer.length := by rw [hw1.1]; decide
  refine ⟨m1, h1, hs, hb2, ⟨toByte (1998 >>> 8), toByte 1998, m1.peer_data_buffer.drop 2, ?_,
    by decide⟩, fun env2 => ?_, by decide, by decide⟩
  · rw [length_packed, set_set_eq _ _ _ h2, hb2]
  · have hf := tx_step_fault example_codes env2 m1 hs hw1 (by rw [hb2]; decide)
    rw [hb2] at hf
    exact hf

end ProvisioningSM
